import Mathlib

/-!
Shallow embedding of the GitHub pull-request extension sources
(`src/github/common.ts`, `src/github/credentials.ts`,
`src/github/createPRViewProvider.ts`) and proofs about the claims on them.

Conventions used throughout:
* TypeScript values that may be `undefined` are modelled with `Option`.
* JavaScript truthiness of an optional boolean / string is made explicit
  with `truthy` / `truthyStr`.
* Async methods whose only effects are messages back to the webview are
  modelled as pure functions returning a trace record of those effects.
* Host API calls (`vscode.authentication.getSession`, the Octokit hub
  construction, `getMergeability`, ...) are abstracted as explicit
  environment parameters, so the definitions stay executable.
-/

namespace Spec2Proof

/-- `GithubItemStateEnum` from `interface.ts` (referenced from `common.ts`;
only the constructors that appear in the sources under study). -/
inductive GithubItemState
  | Open
  | Closed
  | Merged
deriving DecidableEq, Repr

/-- `PullRequestMergeability` from `interface.ts`; `common.ts` only tests
against `Unknown`, the remaining constructors stand for the other values. -/
inductive Mergeability
  | Unknown
  | Mergeable
  | NotMergeable
  | Conflict
  | Behind
deriving DecidableEq, Repr

/-- JavaScript truthiness of an optional boolean (`undefined` is falsy). -/
def truthy : Option Bool → Bool
  | some b => b
  | none => false

/-- JavaScript truthiness of an optional string (`undefined` and `''` are falsy). -/
def truthyStr : Option String → Bool
  | some s => s ≠ ""
  | none => false

/-! ## `mergeQuerySchemaWithShared` (common.ts, lines 81-91)

A JS object of type `Schema` is modelled as its required `definitions`
array together with a partial map for all the remaining keys.  The object
spread `{...schema, ...sharedSchema, definitions: merged}` lets
`sharedSchema`'s bindings shadow `schema`'s on every shared key and then
overrides `definitions` explicitly. -/

structure Schema (α : Type) where
  definitions : List α
  others : String → Option α

def mergeQuerySchemaWithShared {α : Type} (sharedSchema schema : Schema α) : Schema α :=
  let sharedSchemaDefinitions := sharedSchema.definitions
  let schemaDefinitions := schema.definitions
  let mergedDefinitions := schemaDefinitions ++ sharedSchemaDefinitions
  { definitions := mergedDefinitions
    others := fun key =>
      match sharedSchema.others key with
      | some v => some v
      | none => schema.others key }

/-! ## `PullRequestViewProvider.mergePullRequest` (common.ts, lines 544-577) -/

/-- Result object of `FolderRepositoryManager.mergePullRequest`. -/
structure MergeResultData where
  merged : Bool
  message : Option String
deriving DecidableEq, Repr

/-- Outcome of the folder repository manager's merge promise: resolution
with a result, or rejection with an error. -/
inductive MergeOutcome
  | ok (r : MergeResultData)
  | err (e : String)
deriving DecidableEq, Repr

/-- Observable effects of one `mergePullRequest` webview-message handling. -/
structure MergePRTrace where
  /-- whether `_folderRepositoryManager.mergePullRequest` was invoked -/
  mergeInvoked : Bool
  /-- the `state` field of the `_replyMessage` reply, when one is sent -/
  replyState : Option GithubItemState
  /-- whether `_throwError` was called (the `.catch` branch) -/
  threwError : Bool
deriving DecidableEq, Repr

/-- `mergePullRequest`: `confirmation` is the button returned by the modal
`showInformationMessage('Merge this pull request?', { modal: true }, yes)`
(`none` when dismissed), `outcome` is how the manager's merge promise
settles. -/
def mergePullRequest (confirmation : Option String) (outcome : MergeOutcome) :
    MergePRTrace :=
  let yes := "Yes"
  if confirmation ≠ some yes then
    { mergeInvoked := false, replyState := some GithubItemState.Open, threwError := false }
  else
    match outcome with
    | MergeOutcome.ok result =>
      { mergeInvoked := true
        replyState := some (if result.merged then GithubItemState.Merged else GithubItemState.Open)
        threwError := false }
    | MergeOutcome.err _ =>
      { mergeInvoked := true, replyState := none, threwError := true }

/-! ## Credential store (credentials.ts) -/

/-- `AuthProvider` from `common/authentication.ts` (referenced, not under
`src/`): the two authentication providers used by the store. -/
inductive AuthProvider
  | github
  | githubEnterprise
deriving DecidableEq, Repr

/-- Modelled from the spec: `isEnterprise` lives in `github/utils.ts`,
which is not under `src/`; per the authentication-session bookkeeping it
distinguishes the enterprise provider from the dot-com one. -/
def isEnterprise (authProviderId : AuthProvider) : Bool :=
  authProviderId == AuthProvider.githubEnterprise

def SCOPES_OLDEST : List String := ["read:user", "user:email", "repo"]
def SCOPES_OLD : List String := ["read:user", "user:email", "repo", "workflow"]
def SCOPES_WITH_ADDITIONAL : List String :=
  ["read:user", "user:email", "repo", "workflow", "project", "read:org"]

/-- `vscode.AuthenticationSession` (only the fields the store reads). -/
structure Session where
  id : String
  accessToken : String
deriving DecidableEq, Repr

/-- `vscode.AuthenticationGetSessionOptions` as used by the store.
`forceNewSession` may be `true` or an object `{ detail }` in TypeScript;
both are truthy, so `some true` stands for either. -/
structure GetSessionOptions where
  createIfNone : Option Bool := none
  forceNewSession : Option Bool := none
  silent : Option Bool := none
deriving DecidableEq, Repr

/-- The hub object built by `createHub` (opaque here; only its presence
matters to the store's state). -/
structure GitHub where
  token : String
deriving DecidableEq, Repr

/-- The mutable fields of `CredentialStore` that the claims talk about. -/
structure CredState where
  githubAPI : Option GitHub := none
  githubEnterpriseAPI : Option GitHub := none
  sessionId : Option String := none
  enterpriseSessionId : Option String := none
  scopes : List String := SCOPES_OLD
  scopesEnterprise : List String := SCOPES_OLD
  isInitialized : Bool := false
deriving DecidableEq, Repr

/-- `CredentialStore.isAuthenticated` (credentials.ts, lines 262-267). -/
def isAuthenticated (st : CredState) (authProviderId : AuthProvider) : Bool :=
  if !(isEnterprise authProviderId) then
    st.githubAPI.isSome
  else
    st.githubEnterpriseAPI.isSome

/-- `CredentialStore.isAnyAuthenticated` (credentials.ts, lines 258-260). -/
def isAnyAuthenticated (st : CredState) : Bool :=
  isAuthenticated st AuthProvider.github || isAuthenticated st AuthProvider.githubEnterprise

/-- `CredentialStore.getHub` (credentials.ts, lines 276-281). -/
def getHub (st : CredState) (authProviderId : AuthProvider) : Option GitHub :=
  if !(isEnterprise authProviderId) then
    st.githubAPI
  else
    st.githubEnterpriseAPI

/-! ## `createHub` URL composition (credentials.ts, lines 445-508 and 511-524) -/

/-- JavaScript `String.prototype.endsWith` (as used on the enterprise
authority), modelled on the underlying character sequences so that it
stays kernel-reducible. -/
def jsEndsWith (s suffix : String) : Bool :=
  suffix.data.isSuffixOf s.data

/-- A `vscode.Uri` reduced to the components `createHub` reads. -/
structure EnterpriseUri where
  scheme : String
  authority : String
deriving DecidableEq, Repr

/-- The REST `baseUrl` computed at the top of `createHub`.
`enterpriseUriSetting` models `getEnterpriseUri()` (from `github/utils.ts`,
driven by the enterprise URI setting), which is consulted only for the
enterprise provider and may be unset. -/
def createHubBaseUrl (authProviderId : AuthProvider)
    (enterpriseUriSetting : Option EnterpriseUri) : String :=
  let enterpriseServerUri :=
    if isEnterprise authProviderId then enterpriseUriSetting else none
  match enterpriseServerUri with
  | none => "https://api.github.com"
  | some uri =>
    if jsEndsWith uri.authority "ghe.com" then
      uri.scheme ++ "://api." ++ uri.authority
    else
      uri.scheme ++ "://" ++ uri.authority ++ "/api/v3"

/-- The `graphQLBaseUrl` handed to `link` further down `createHub`. -/
def createHubGraphQLBaseUrl (authProviderId : AuthProvider)
    (enterpriseUriSetting : Option EnterpriseUri) : String :=
  let baseUrl := createHubBaseUrl authProviderId enterpriseUriSetting
  let enterpriseServerUri :=
    if isEnterprise authProviderId then enterpriseUriSetting else none
  match enterpriseServerUri with
  | none => baseUrl
  | some uri =>
    if jsEndsWith uri.authority "ghe.com" then
      baseUrl
    else
      uri.scheme ++ "://" ++ uri.authority ++ "/api"

/-- The GraphQL HTTP endpoint: `link` appends `/graphql` to the URL it is
given (credentials.ts, line 520). -/
def createHubGraphQLEndpoint (authProviderId : AuthProvider)
    (enterpriseUriSetting : Option EnterpriseUri) : String :=
  createHubGraphQLBaseUrl authProviderId enterpriseUriSetting ++ "/graphql"

/-! ## Webview message routing (common.ts lines 180-217,
createPRViewProvider.ts lines 506-543 and 1315-1344)

`WebviewViewBase._onDidReceiveMessage` (in `common/webview.ts`, not under
`src/`) is abstracted by the boolean `baseHandled`: `true` means the base
class returned something other than `MESSAGE_UNHANDLED`. -/

/-- Who ends up processing a webview message. -/
inductive HandlerOutcome
  | base
  | handler (command : String)
  | ignored
  | unsupportedError
deriving DecidableEq, Repr

/-- The commands of the `switch` in `PullRequestViewProvider._onDidReceiveMessage`. -/
def prCommands : List String :=
  ["alert", "pr.close", "pr.comment", "pr.merge", "pr.open-create",
   "pr.deleteBranch", "pr.readyForReview", "pr.approve", "pr.request-changes",
   "pr.submit", "pr.openOnGitHub", "pr.checkout-default-branch",
   "pr.update-branch", "pr.re-request-review"]

/-- The commands of the `switch` in
`BaseCreatePullRequestViewProvider._onDidReceiveMessage`. -/
def baseCreateCommands : List String :=
  ["pr.requestInitialize", "pr.cancelCreate", "pr.create", "pr.changeLabels",
   "pr.changeReviewers", "pr.changeAssignees", "pr.changeMilestone",
   "pr.changeProjects", "pr.removeLabel"]

/-- The commands of the `switch` in
`CreatePullRequestViewProvider._onDidReceiveMessage`. -/
def createPRCommands : List String :=
  ["pr.changeBaseRemoteAndBranch", "pr.changeCompareRemoteAndBranch",
   "pr.generateTitleAndDescription", "pr.cancelGenerateTitleAndDescription",
   "pr.preReview", "pr.cancelPreReview"]

/-- `PullRequestViewProvider._onDidReceiveMessage`: consult the base class,
then dispatch on `message.command`; a `command` outside the `switch` falls
through the end of the method (silently ignored). -/
def prOnDidReceiveMessage (baseHandled : Bool) (command : String) : HandlerOutcome :=
  if baseHandled then
    HandlerOutcome.base
  else if command ∈ prCommands then
    HandlerOutcome.handler command
  else
    HandlerOutcome.ignored

/-- `CreatePullRequestViewProvider._onDidReceiveMessage` chained through
`BaseCreatePullRequestViewProvider._onDidReceiveMessage`: the base create
provider consults `WebviewViewBase` first and returns `MESSAGE_UNHANDLED`
from its `default:` arm, in which case the subclass dispatches, showing
`'Unsupported webview message'` from its own `default:` arm. -/
def createPROnDidReceiveMessage (baseHandled : Bool) (command : String) : HandlerOutcome :=
  if baseHandled then
    HandlerOutcome.base
  else if command ∈ baseCreateCommands then
    HandlerOutcome.handler command
  else if command ∈ createPRCommands then
    HandlerOutcome.handler command
  else
    HandlerOutcome.unsupportedError

/-! ## Reviewer bookkeeping (common.ts, lines 432-446 and 471-485) -/

/-- One reviewer of `ReviewState` (interface.ts, not under `src/`): either
a user account or a team.  `reviewerId` distinguishes them in the sources,
so the key each kind carries is kept explicit here. -/
inductive Reviewer
  | account (login : String)
  | team (id : String)
deriving DecidableEq, Repr

/-- Modelled from the spec: `reviewerId` lives in `interface.ts`, not under
`src/`; per the code's comparisons with user logins it returns the account
login for users and the team id for teams. -/
def reviewerId : Reviewer → String
  | Reviewer.account login => login
  | Reviewer.team id => id

/-- An entry of `_existingReviewers`. -/
structure ReviewerState where
  reviewer : Reviewer
  state : String
deriving DecidableEq, Repr

/-- A `ReviewEvent` (common/timelineEvent.ts, not under `src/`) reduced to
the fields `updateReviewers` reads: the submitting user's login and the
(possibly missing) review state. -/
structure ReviewEvent where
  userLogin : String
  state : Option String
deriving DecidableEq, Repr

/-- Mutation of the first entry found by
`this._existingReviewers.find(reviewer => review.user.login === reviewerId(reviewer.reviewer))`:
`existingReviewer.state = review.state`. -/
def setFirstReviewerState (reviewers : List ReviewerState) (login state : String) :
    List ReviewerState :=
  match reviewers with
  | [] => []
  | rv :: rest =>
    if login = reviewerId rv.reviewer then
      { rv with state := state } :: rest
    else
      rv :: setFirstReviewerState rest login state

/-- `PullRequestViewProvider.updateReviewers` (common.ts, lines 432-446). -/
def updateReviewers (reviewers : List ReviewerState) (review : Option ReviewEvent) :
    List ReviewerState :=
  match review with
  | none => reviewers
  | some r =>
    match r.state with
    | none => reviewers
    | some s =>
      if s = "" then
        reviewers
      else if (reviewers.find? fun rv => r.userLogin = reviewerId rv.reviewer).isSome then
        setFirstReviewerState reviewers r.userLogin s
      else
        reviewers ++ [{ reviewer := Reviewer.account r.userLogin, state := s }]

/-- Observable effects of one `doReviewMessage` call. -/
structure ReviewMsgTrace where
  /-- `_existingReviewers` after the call -/
  reviewers : List ReviewerState
  /-- whether `_replyMessage` was sent with the `SubmitReviewReply` -/
  replied : Bool
  /-- the formatted error forwarded through `_throwError`, when the action rejected -/
  thrownError : Option String
deriving DecidableEq, Repr

/-- `PullRequestViewProvider.doReviewMessage` (common.ts, lines 471-485):
`actionResult` is how the submit action's promise settles (`formatError`
is modelled as the identity on the error message). -/
def doReviewMessage (reviewers : List ReviewerState)
    (actionResult : Except String ReviewEvent) : ReviewMsgTrace :=
  match actionResult with
  | Except.ok review =>
    let newReviewers := updateReviewers reviewers (some review)
    { reviewers := newReviewers, replied := true, thrownError := none }
  | Except.error e =>
    { reviewers := reviewers, replied := false, thrownError := some e }

/-! ## `getSession` / `findExistingScopes` / `initialize` (credentials.ts) -/

/-- The host capabilities `CredentialStore` drives.
`hostGetSession` is `vscode.authentication.getSession` (it can reject);
`createHubFor` is the effectful part of `createHub` — building the Octokit
hub for an access token — which can also reject (e.g. `'Bad credentials'`). -/
structure AuthEnv where
  hostGetSession :
    AuthProvider → List String → GetSessionOptions → Except String (Option Session)
  createHubFor : String → AuthProvider → Except String GitHub

/-- The `for` loop of `findExistingScopes`: probe each scope set with
`{ silent: true }` and stop at the first session found. -/
def findExistingScopesProbe (env : AuthEnv) (authProviderId : AuthProvider) :
    List (List String) → Except String (Option (Session × List String))
  | [] => pure none
  | scopes :: rest => do
    let session ← env.hostGetSession authProviderId scopes { silent := some true }
    match session with
    | some s => pure (some (s, scopes))
    | none => findExistingScopesProbe env authProviderId rest

/-- `CredentialStore.findExistingScopes` (credentials.ts, lines 435-443):
probe the scope sets in preference order and return the first session
found with its scope set. -/
def findExistingScopes (env : AuthEnv) (authProviderId : AuthProvider) :
    Except String (Option (Session × List String)) :=
  findExistingScopesProbe env authProviderId [SCOPES_WITH_ADDITIONAL, SCOPES_OLD, SCOPES_OLDEST]

/-- Result record of `CredentialStore.getSession`. -/
structure GetSessionResult where
  session : Option Session
  isNew : Bool
  scopes : List String
deriving DecidableEq, Repr

/-- `CredentialStore.getSession` (credentials.ts, lines 425-433). -/
def getSession (env : AuthEnv) (authProviderId : AuthProvider)
    (getAuthSessionOptions : GetSessionOptions) (scopes : List String)
    (requireScopes : Bool) : Except String GetSessionResult := do
  let existingSession ←
    if truthy getAuthSessionOptions.forceNewSession || requireScopes then
      pure none
    else
      findExistingScopes env authProviderId
  match existingSession with
  | some (session, foundScopes) =>
    pure { session := some session, isNew := false, scopes := foundScopes }
  | none =>
    let session ← env.hostGetSession authProviderId
      (if requireScopes then scopes else SCOPES_OLD) getAuthSessionOptions
    pure { session := session, isNew := session.isSome
           scopes := if requireScopes then scopes else SCOPES_OLD }

/-- `AuthResult` (credentials.ts, lines 47-49). -/
structure AuthResult where
  canceled : Bool
deriving DecidableEq, Repr

/-- The option normalization at the top of `initialize` (credentials.ts,
lines 137-139): when neither `createIfNone` nor `forceNewSession` is given,
set `createIfNone` to `false`. -/
def normalizeOptions (o : GetSessionOptions) : GetSessionOptions :=
  if o.createIfNone = none ∧ o.forceNewSession = none then
    { o with createIfNone := some false }
  else
    o

/-- `CredentialStore.initialize` (credentials.ts, lines 128-221), as a
state transformer on `CredState`.  A thrown error carries the state at the
moment of the throw.  `hasEnterpriseUri` and `isSamling` model the setting
probe and the `_isSamling` flag; `saveScopesInState` only touches the
persisted `globalState`, which is outside `CredState`.  The `'Bad
credentials'` retry recurses at most once because the retry forces
`forceNewSession := true`. -/
def initCredentialStore (env : AuthEnv) (authProviderId : AuthProvider)
    (hasEnterpriseUri : Bool) (isSamling : Bool)
    (getAuthSessionOptions : GetSessionOptions) (scopes : List String)
    (requireScopes : Bool) (st : CredState) :
    Except (String × CredState) (AuthResult × CredState) :=
  if isEnterprise authProviderId ∧ ¬hasEnterpriseUri then
    Except.ok ({ canceled := false }, st)
  else
    let opts := normalizeOptions getAuthSessionOptions
    let oldScopes := st.scopes
    let oldEnterpriseScopes := st.scopesEnterprise
    -- Set scopes before getting the session (credentials.ts, lines 148-153).
    let st1 :=
      if ¬(isEnterprise authProviderId) then { st with scopes := scopes }
      else { st with scopesEnterprise := scopes }
    match getSession env authProviderId opts scopes requireScopes with
    | Except.error e =>
      let st2 := { st1 with scopes := oldScopes, scopesEnterprise := oldEnterpriseScopes }
      let userCanceld := e = "User did not consent to login."
      if truthy opts.forceNewSession ∧ userCanceld then
        -- continue as usual: `session` stays undefined, so fall through to
        -- the `else` of `if (session)` and return the auth result.
        Except.ok ({ canceled := userCanceld }, st2)
      else
        Except.error (e, st2)
    | Except.ok result =>
      let usedScopes := result.scopes
      let isNew := result.isNew
      match result.session with
      | none => Except.ok ({ canceled := false }, st1)
      | some session =>
        let st2 :=
          if ¬(isEnterprise authProviderId) then { st1 with sessionId := some session.id }
          else { st1 with enterpriseSessionId := some session.id }
        match h : env.createHubFor session.accessToken authProviderId with
        | Except.error e =>
          if e = "Bad credentials" ∧ ¬(truthy opts.forceNewSession) then
            initCredentialStore env authProviderId hasEnterpriseUri isSamling
              { opts with forceNewSession := some true, silent := some false }
              scopes requireScopes st2
          else
            -- `github` stays undefined; the hub slot is overwritten with it.
            let st3 :=
              if ¬(isEnterprise authProviderId) then
                { st2 with githubAPI := none, scopes := usedScopes }
              else
                { st2 with githubEnterpriseAPI := none, scopesEnterprise := usedScopes }
            let st4 :=
              if ¬st3.isInitialized ∨ (isNew ∧ ¬isSamling) then
                { st3 with isInitialized := true }
              else st3
            Except.ok ({ canceled := false }, st4)
        | Except.ok github =>
          let st3 :=
            if ¬(isEnterprise authProviderId) then
              { st2 with githubAPI := some github, scopes := usedScopes }
            else
              { st2 with githubEnterpriseAPI := some github, scopesEnterprise := usedScopes }
          let st4 :=
            if ¬st3.isInitialized ∨ (isNew ∧ ¬isSamling) then
              { st3 with isInitialized := true }
            else st3
          Except.ok ({ canceled := false }, st4)
  termination_by (if truthy (normalizeOptions getAuthSessionOptions).forceNewSession then 0 else 1)
  decreasing_by
    unfold opts at *
    rcases hfn : getAuthSessionOptions.forceNewSession with _ | b <;>
      rcases hci : getAuthSessionOptions.createIfNone with _ | c <;>
        simp_all [normalizeOptions, truthy]

/-! ## `updateBranch` (common.ts, lines 154-178) -/

/-- The do-while poll loop of `updateBranch`: `get i` is the mergeability
reported by the `(i+1)`-th `getMergeability()` call.  Returns the number of
calls made and the last reported mergeability. -/
def pollMergeability (get : Nat → Mergeability) (i : Nat)
    (attemptsRemaining : Nat) : Nat × Mergeability :=
  let mergability := get i
  let remaining := attemptsRemaining - 1
  if 0 < remaining ∧ mergability = Mergeability.Unknown then
    pollMergeability get (i + 1) remaining
  else
    (i + 1, mergability)
  termination_by attemptsRemaining
  decreasing_by omega

/-- Observable effects of one `updateBranch` webview-message handling. -/
structure UpdateBranchTrace where
  /-- whether `tryMergeBaseIntoHead` was invoked -/
  mergeAttempted : Bool
  /-- replied immediately because of working-tree or index changes -/
  earlyReply : Bool
  /-- the extra empty `_replyMessage` sent when the merge did not succeed -/
  emptyReplyOnFailedMerge : Bool
  /-- number of `getMergeability()` calls made by the poll loop -/
  pollCalls : Nat
  /-- the `mergeable` field of the final reply, when one is sent -/
  finalMergeability : Option Mergeability
deriving DecidableEq, Repr

/-- `PullRequestViewProvider.updateBranch` (common.ts, lines 154-178):
`workingTreeChanges`/`indexChanges` are the lengths of the repository
state's change lists, `mergeSucceeded` is the result of
`tryMergeBaseIntoHead`, and `get` supplies the successive
`getMergeability()` results. -/
def updateBranch (workingTreeChanges indexChanges : Nat) (mergeSucceeded : Bool)
    (get : Nat → Mergeability) : UpdateBranchTrace :=
  if workingTreeChanges > 0 ∨ indexChanges > 0 then
    { mergeAttempted := false, earlyReply := true, emptyReplyOnFailedMerge := false
      pollCalls := 0, finalMergeability := none }
  else
    let result := pollMergeability get 0 5
    { mergeAttempted := true, earlyReply := false
      emptyReplyOnFailedMerge := !mergeSucceeded
      pollCalls := result.1, finalMergeability := some result.2 }

/-! ## Theorems -/

/-- C10: `mergeQuerySchemaWithShared` returns an object whose `definitions`
field is `schema.definitions` concatenated with `sharedSchema.definitions`
(in that order), and whose every other key maps to `sharedSchema`'s value
when that key is present in `sharedSchema` and to `schema`'s value
otherwise.  (The embedding is purely functional, mirroring that neither
input object is mutated: `concat` and object spread both build new
objects.) -/
theorem c10_mergeQuerySchemaWithShared {α : Type} (sharedSchema schema : Schema α) :
    (mergeQuerySchemaWithShared sharedSchema schema).definitions
        = schema.definitions ++ sharedSchema.definitions ∧
    (∀ key v, sharedSchema.others key = some v →
      (mergeQuerySchemaWithShared sharedSchema schema).others key = some v) ∧
    (∀ key, sharedSchema.others key = none →
      (mergeQuerySchemaWithShared sharedSchema schema).others key = schema.others key) := by
  refine ⟨rfl, ?_, ?_⟩
  · intro key v h
    simp [mergeQuerySchemaWithShared, h]
  · intro key h
    simp [mergeQuerySchemaWithShared, h]

/-- Witness for C10 on concrete schemas over `Nat` values. -/
theorem c10_mergeQuerySchemaWithShared_witness :
    (mergeQuerySchemaWithShared
        ⟨[1], fun k => if k = "a" then some 10 else none⟩
        ⟨[2], fun k => if k = "a" then some 20 else if k = "b" then some 30 else none⟩).definitions
      = [2, 1] ∧
    (mergeQuerySchemaWithShared
        ⟨[1], fun k => if k = "a" then some 10 else none⟩
        ⟨[2], fun k => if k = "a" then some 20 else if k = "b" then some 30 else none⟩).others "a"
      = some 10 ∧
    (mergeQuerySchemaWithShared
        ⟨[1], fun k => if k = "a" then some 10 else none⟩
        ⟨[2], fun k => if k = "a" then some 20 else if k = "b" then some 30 else none⟩).others "b"
      = some 30 := by
  refine ⟨(c10_mergeQuerySchemaWithShared _ _).1, ?_, ?_⟩
  · exact (c10_mergeQuerySchemaWithShared _ _).2.1 "a" 10 (by simp)
  · exact ((c10_mergeQuerySchemaWithShared _ _).2.2 "b" (by simp)).trans (by simp)

/-- C7: `isAuthenticated` holds for a provider exactly when a hub object is
stored for that provider (`_githubAPI` for dot-com, `_githubEnterpriseAPI`
for enterprise), and `isAnyAuthenticated` holds exactly when
`isAuthenticated` does for at least one of the two providers. -/
theorem c7_isAuthenticated (st : CredState) :
    (isAuthenticated st AuthProvider.github = true ↔ ∃ hub, st.githubAPI = some hub) ∧
    (isAuthenticated st AuthProvider.githubEnterprise = true ↔
      ∃ hub, st.githubEnterpriseAPI = some hub) ∧
    (isAnyAuthenticated st = true ↔
      (isAuthenticated st AuthProvider.github = true ∨
        isAuthenticated st AuthProvider.githubEnterprise = true)) := by
  refine ⟨?_, ?_, ?_⟩
  · simp [isAuthenticated, isEnterprise, Option.isSome_iff_exists]
  · simp [isAuthenticated, isEnterprise, Option.isSome_iff_exists]
  · simp [isAnyAuthenticated]

/-- C1: the folder repository manager's merge is invoked only when the
modal confirmation came back `'Yes'`; without confirmation the handler
replies `Open` and performs no merge; and on an attempted merge whose
promise resolves, the reply state is `Merged` exactly when the result
reports `merged` (and `Open` otherwise). -/
theorem c1_mergePullRequest (confirmation : Option String) (outcome : MergeOutcome) :
    ((mergePullRequest confirmation outcome).mergeInvoked = true →
      confirmation = some "Yes") ∧
    (confirmation ≠ some "Yes" →
      mergePullRequest confirmation outcome =
        { mergeInvoked := false, replyState := some GithubItemState.Open,
          threwError := false }) ∧
    (∀ r, outcome = MergeOutcome.ok r → confirmation = some "Yes" →
      (((mergePullRequest confirmation outcome).replyState
          = some GithubItemState.Merged) ↔ r.merged = true) ∧
      (((mergePullRequest confirmation outcome).replyState
          = some GithubItemState.Open) ↔ r.merged = false)) := by
  refine ⟨?_, ?_, ?_⟩
  · intro h
    by_cases hc : confirmation = some "Yes"
    · exact hc
    · simp [mergePullRequest, hc] at h
  · intro hc
    simp [mergePullRequest, hc]
  · rintro r rfl rfl
    cases hm : r.merged <;> simp [mergePullRequest, hm]

/-- Witness for C1: an unconfirmed dialog replies `Open` without merging; a
confirmed one whose merge result reports `merged` replies `Merged`. -/
theorem c1_mergePullRequest_witness :
    mergePullRequest none (MergeOutcome.ok ⟨true, none⟩) =
      { mergeInvoked := false, replyState := some GithubItemState.Open,
        threwError := false } ∧
    ((mergePullRequest (some "Yes") (MergeOutcome.ok ⟨true, none⟩)).replyState
      = some GithubItemState.Merged ↔ (true : Bool) = true) := by
  refine ⟨?_, ?_⟩
  · exact (c1_mergePullRequest none (MergeOutcome.ok ⟨true, none⟩)).2.1 (by decide)
  · exact ((c1_mergePullRequest (some "Yes") (MergeOutcome.ok ⟨true, none⟩)).2.2
      ⟨true, none⟩ rfl rfl).1

/-- C5: the REST base URL is `https://api.github.com` for the dot-com
provider; `scheme://api.authority` for an enterprise URI whose authority
ends with `ghe.com`; `scheme://authority/api/v3` otherwise; and the
GraphQL endpoint is the base URL suffixed with `/graphql`, except that a
non-`ghe.com` enterprise URI uses the GraphQL base `scheme://authority/api`. -/
theorem c5_createHub_urls (scheme authority : String) (uri : Option EnterpriseUri) :
    (createHubBaseUrl AuthProvider.github uri = "https://api.github.com" ∧
      createHubGraphQLEndpoint AuthProvider.github uri
        = "https://api.github.com" ++ "/graphql") ∧
    (jsEndsWith authority "ghe.com" = true →
      createHubBaseUrl AuthProvider.githubEnterprise (some ⟨scheme, authority⟩)
          = scheme ++ "://api." ++ authority ∧
      createHubGraphQLEndpoint AuthProvider.githubEnterprise (some ⟨scheme, authority⟩)
          = (scheme ++ "://api." ++ authority) ++ "/graphql") ∧
    (jsEndsWith authority "ghe.com" = false →
      createHubBaseUrl AuthProvider.githubEnterprise (some ⟨scheme, authority⟩)
          = scheme ++ "://" ++ authority ++ "/api/v3" ∧
      createHubGraphQLEndpoint AuthProvider.githubEnterprise (some ⟨scheme, authority⟩)
          = (scheme ++ "://" ++ authority ++ "/api") ++ "/graphql") := by
  refine ⟨⟨?_, ?_⟩, ?_, ?_⟩
  · simp [createHubBaseUrl, isEnterprise]
  · simp [createHubGraphQLEndpoint, createHubGraphQLBaseUrl, createHubBaseUrl, isEnterprise]
  · intro h
    simp [createHubBaseUrl, createHubGraphQLEndpoint, createHubGraphQLBaseUrl, isEnterprise, h]
  · intro h
    simp [createHubBaseUrl, createHubGraphQLEndpoint, createHubGraphQLBaseUrl, isEnterprise, h]

/-- Witness for C5 on a `ghe.com` authority and a classic enterprise host. -/
theorem c5_createHub_urls_witness :
    createHubBaseUrl AuthProvider.githubEnterprise (some ⟨"https", "corp.ghe.com"⟩)
        = "https" ++ "://api." ++ "corp.ghe.com" ∧
    createHubGraphQLEndpoint AuthProvider.githubEnterprise (some ⟨"https", "ghe.corp.net"⟩)
        = ("https" ++ "://" ++ "ghe.corp.net" ++ "/api") ++ "/graphql" := by
  refine ⟨?_, ?_⟩
  · exact ((c5_createHub_urls "https" "corp.ghe.com" none).2.1 (by decide)).1
  · exact ((c5_createHub_urls "https" "ghe.corp.net" none).2.2 (by decide)).2

/-- C6: a webview message is first offered to the base-class handler
(`baseHandled` abstracts its result); only when the base class reports
`MESSAGE_UNHANDLED` does the subclass `switch` on `message.command`, so
each message reaches at most one command handler (the dispatch functions
return a single `HandlerOutcome`); an unrecognized command is silently
ignored in `PullRequestViewProvider` and produces the
`'Unsupported webview message'` error in `CreatePullRequestViewProvider`. -/
theorem c6_message_routing (baseHandled : Bool) (command : String) :
    (baseHandled = true →
      prOnDidReceiveMessage baseHandled command = HandlerOutcome.base ∧
      createPROnDidReceiveMessage baseHandled command = HandlerOutcome.base) ∧
    (baseHandled = false → command ∈ prCommands →
      prOnDidReceiveMessage baseHandled command = HandlerOutcome.handler command) ∧
    (baseHandled = false → command ∉ prCommands →
      prOnDidReceiveMessage baseHandled command = HandlerOutcome.ignored) ∧
    (baseHandled = false →
      (command ∈ baseCreateCommands ∨ command ∈ createPRCommands) →
      createPROnDidReceiveMessage baseHandled command = HandlerOutcome.handler command) ∧
    (baseHandled = false → command ∉ baseCreateCommands → command ∉ createPRCommands →
      createPROnDidReceiveMessage baseHandled command = HandlerOutcome.unsupportedError) := by
  refine ⟨?_, ?_, ?_, ?_, ?_⟩
  · rintro rfl
    exact ⟨rfl, rfl⟩
  · rintro rfl h
    simp [prOnDidReceiveMessage, h]
  · rintro rfl h
    simp [prOnDidReceiveMessage, h]
  · rintro rfl h
    rcases h with h | h
    · simp [createPROnDidReceiveMessage, h]
    · by_cases hb : command ∈ baseCreateCommands <;>
        simp [createPROnDidReceiveMessage, h, hb]
  · rintro rfl h1 h2
    simp [createPROnDidReceiveMessage, h1, h2]

/-- Witness for C6: a handled base message, a PR command, an unknown PR
command, and an unknown create command. -/
theorem c6_message_routing_witness :
    prOnDidReceiveMessage true "pr.merge" = HandlerOutcome.base ∧
    prOnDidReceiveMessage false "pr.merge" = HandlerOutcome.handler "pr.merge" ∧
    prOnDidReceiveMessage false "pr.unknown" = HandlerOutcome.ignored ∧
    createPROnDidReceiveMessage false "pr.create" = HandlerOutcome.handler "pr.create" ∧
    createPROnDidReceiveMessage false "pr.unknown" = HandlerOutcome.unsupportedError := by
  refine ⟨?_, ?_, ?_, ?_, ?_⟩
  · exact (c6_message_routing true "pr.merge").1 rfl |>.1
  · exact (c6_message_routing false "pr.merge").2.1 rfl (by decide)
  · exact (c6_message_routing false "pr.unknown").2.2.1 rfl (by decide)
  · exact (c6_message_routing false "pr.create").2.2.2.1 rfl (Or.inl (by decide))
  · exact (c6_message_routing false "pr.unknown").2.2.2.2 rfl (by decide) (by decide)

/-- C3: when the submit action's promise rejects, `doReviewMessage` leaves
the stored reviewer list unchanged and forwards the formatted error
through `_throwError`; the reviewer list is updated (via
`updateReviewers`) only when the action resolves. -/
theorem c3_doReviewMessage (reviewers : List ReviewerState)
    (actionResult : Except String ReviewEvent) :
    (∀ e, actionResult = Except.error e →
      doReviewMessage reviewers actionResult =
        { reviewers := reviewers, replied := false, thrownError := some e }) ∧
    (∀ review, actionResult = Except.ok review →
      doReviewMessage reviewers actionResult =
        { reviewers := updateReviewers reviewers (some review), replied := true,
          thrownError := none }) := by
  refine ⟨?_, ?_⟩
  · rintro e rfl
    rfl
  · rintro review rfl
    rfl

/-- Witness for C3: a rejected approval leaves the one-element reviewer
list untouched and forwards the error. -/
theorem c3_doReviewMessage_witness :
    doReviewMessage [⟨Reviewer.account "alice", "REQUESTED"⟩]
        (Except.error "HTTP 422") =
      { reviewers := [⟨Reviewer.account "alice", "REQUESTED"⟩], replied := false,
        thrownError := some "HTTP 422" } :=
  (c3_doReviewMessage [⟨Reviewer.account "alice", "REQUESTED"⟩]
    (Except.error "HTTP 422")).1 "HTTP 422" rfl

/-- Helper: `setFirstReviewerState` preserves the list length. -/
theorem setFirstReviewerState_length (l : List ReviewerState) (login s : String) :
    (setFirstReviewerState l login s).length = l.length := by
  induction l with
  | nil => rfl
  | cons rv rest ih =>
    by_cases h : login = reviewerId rv.reviewer <;>
      simp [setFirstReviewerState, h, ih]

/-- Helper: `setFirstReviewerState` rewrites exactly the first entry whose
reviewer id matches, leaving every other position untouched. -/
theorem setFirstReviewerState_get? (l : List ReviewerState) (login s : String) (j : Nat)
    (hfound : (l.find? fun rv => login = reviewerId rv.reviewer).isSome = true) :
    (setFirstReviewerState l login s).get? j =
      if j = l.findIdx (fun rv => login = reviewerId rv.reviewer) then
        (l.get? j).map fun rv => { rv with state := s }
      else
        l.get? j := by
  induction l generalizing j with
  | nil => simp [List.find?] at hfound
  | cons rv rest ih =>
    by_cases h : login = reviewerId rv.reviewer
    · simp only [setFirstReviewerState, if_pos h, List.findIdx_cons, decide_eq_true h,
        cond_true]
      cases j with
      | zero => simp
      | succ j => simp
    · have hfound' : (rest.find? fun rv => login = reviewerId rv.reviewer).isSome = true := by
        rw [List.find?_cons_of_neg] at hfound
        · exact hfound
        · simpa using h
      simp only [setFirstReviewerState, if_neg h, List.findIdx_cons,
        decide_eq_false h, cond_false]
      cases j with
      | zero => simp
      | succ j =>
        simpa [Nat.succ_inj] using ih j hfound'

/-- C4: `updateReviewers` on a review with a (truthy) state performs an
upsert keyed by the review user's login: when an entry with that reviewer
id exists, only the first such entry has its state replaced and the length
is unchanged; otherwise exactly the new entry (the review's user with the
review's state) is appended. -/
theorem c4_updateReviewers (reviewers : List ReviewerState) (login s : String)
    (hs : s ≠ "") :
    ((reviewers.find? fun rv => login = reviewerId rv.reviewer).isSome = true →
      (updateReviewers reviewers (some { userLogin := login, state := some s })).length
          = reviewers.length ∧
      ∀ j, (updateReviewers reviewers (some { userLogin := login, state := some s })).get? j =
        if j = reviewers.findIdx (fun rv => login = reviewerId rv.reviewer) then
          (reviewers.get? j).map fun rv => { rv with state := s }
        else
          reviewers.get? j) ∧
    ((reviewers.find? fun rv => login = reviewerId rv.reviewer) = none →
      updateReviewers reviewers (some { userLogin := login, state := some s }) =
        reviewers ++ [{ reviewer := Reviewer.account login, state := s }]) := by
  constructor
  · intro hfound
    have hupd : updateReviewers reviewers (some { userLogin := login, state := some s })
        = setFirstReviewerState reviewers login s := by
      simp [updateReviewers, hs, hfound]
    rw [hupd]
    exact ⟨setFirstReviewerState_length reviewers login s,
      fun j => setFirstReviewerState_get? reviewers login s j hfound⟩
  · intro hnone
    simp [updateReviewers, hs, hnone]

/-- Witness for C4: updating an existing reviewer rewrites only that entry
and keeps the length; a new reviewer is appended. -/
theorem c4_updateReviewers_witness :
    (updateReviewers
        [⟨Reviewer.account "alice", "REQUESTED"⟩, ⟨Reviewer.team "t1", "COMMENTED"⟩]
        (some { userLogin := "alice", state := some "APPROVED" })).length = 2 ∧
    (updateReviewers
        [⟨Reviewer.account "alice", "REQUESTED"⟩, ⟨Reviewer.team "t1", "COMMENTED"⟩]
        (some { userLogin := "alice", state := some "APPROVED" })).get? 0 =
      some ⟨Reviewer.account "alice", "APPROVED"⟩ ∧
    updateReviewers [⟨Reviewer.account "alice", "REQUESTED"⟩]
        (some { userLogin := "bob", state := some "CHANGES_REQUESTED" }) =
      [⟨Reviewer.account "alice", "REQUESTED"⟩,
       ⟨Reviewer.account "bob", "CHANGES_REQUESTED"⟩] := by
  refine ⟨?_, ?_, ?_⟩
  · exact ((c4_updateReviewers
      [⟨Reviewer.account "alice", "REQUESTED"⟩, ⟨Reviewer.team "t1", "COMMENTED"⟩]
      "alice" "APPROVED" (by decide)).1 (by decide)).1
  · exact (((c4_updateReviewers
      [⟨Reviewer.account "alice", "REQUESTED"⟩, ⟨Reviewer.team "t1", "COMMENTED"⟩]
      "alice" "APPROVED" (by decide)).1 (by decide)).2 0).trans (by decide)
  · exact (c4_updateReviewers [⟨Reviewer.account "alice", "REQUESTED"⟩]
      "bob" "CHANGES_REQUESTED" (by decide)).2 (by decide)

/-- Helper: full characterization of the do-while poll loop.  Starting at
call index `i` with a positive attempt budget, the loop makes between one
and `attempts` calls, ends on the result of its last call, sees `Unknown`
on every call before the last, and stops short of the budget only when the
last call is not `Unknown`. -/
theorem pollMergeability_spec (get : Nat → Mergeability) :
    ∀ attempts, 0 < attempts → ∀ i,
      i < (pollMergeability get i attempts).1 ∧
      (pollMergeability get i attempts).1 ≤ i + attempts ∧
      (pollMergeability get i attempts).2 = get ((pollMergeability get i attempts).1 - 1) ∧
      (∀ k, i ≤ k → k + 1 < (pollMergeability get i attempts).1 →
        get k = Mergeability.Unknown) ∧
      ((pollMergeability get i attempts).1 < i + attempts →
        get ((pollMergeability get i attempts).1 - 1) ≠ Mergeability.Unknown) := by
  intro attempts
  induction attempts using Nat.strong_induction_on with
  | _ attempts ih =>
    intro hpos i
    rw [pollMergeability]
    by_cases hc : 0 < attempts - 1 ∧ get i = Mergeability.Unknown
    · simp only [if_pos hc]
      obtain ⟨h1, h2, h3, h4, h5⟩ := ih (attempts - 1) (by omega) hc.1 (i + 1)
      refine ⟨by omega, by omega, h3, ?_, by intro h; exact h5 (by omega)⟩
      intro k hk hk2
      rcases Nat.eq_or_lt_of_le hk with rfl | hk'
      · exact hc.2
      · exact h4 k hk' hk2
    · simp only [if_neg hc]
      refine ⟨Nat.lt_succ_self i, by omega, by simp, ?_, ?_⟩
      · intro k hk hk2
        omega
      · intro hlt
        have h1 : 0 < attempts - 1 := by omega
        have := fun h => hc ⟨h1, h⟩
        simpa using this

/-- C9: with any working-tree or index changes, `updateBranch` attempts no
merge and replies immediately; otherwise the mergeability poll loop
terminates after at most 5 `getMergeability()` calls (and at least one),
every call before the last reports `Unknown`, the loop stops before the
budget only because the last call is not `Unknown`, and the final reply
carries the last reported mergeability. -/
theorem c9_updateBranch (workingTreeChanges indexChanges : Nat) (mergeSucceeded : Bool)
    (get : Nat → Mergeability) :
    (workingTreeChanges > 0 ∨ indexChanges > 0 →
      updateBranch workingTreeChanges indexChanges mergeSucceeded get =
        { mergeAttempted := false, earlyReply := true, emptyReplyOnFailedMerge := false,
          pollCalls := 0, finalMergeability := none }) ∧
    (workingTreeChanges = 0 → indexChanges = 0 →
      (updateBranch workingTreeChanges indexChanges mergeSucceeded get).mergeAttempted
          = true ∧
      1 ≤ (updateBranch workingTreeChanges indexChanges mergeSucceeded get).pollCalls ∧
      (updateBranch workingTreeChanges indexChanges mergeSucceeded get).pollCalls ≤ 5 ∧
      (∀ k, k + 1 < (updateBranch workingTreeChanges indexChanges mergeSucceeded get).pollCalls →
        get k = Mergeability.Unknown) ∧
      ((updateBranch workingTreeChanges indexChanges mergeSucceeded get).pollCalls < 5 →
        get ((updateBranch workingTreeChanges indexChanges mergeSucceeded get).pollCalls - 1)
          ≠ Mergeability.Unknown) ∧
      (updateBranch workingTreeChanges indexChanges mergeSucceeded get).finalMergeability
        = some (get
            ((updateBranch workingTreeChanges indexChanges mergeSucceeded get).pollCalls - 1))) := by
  constructor
  · intro h
    simp only [updateBranch, if_pos h]
  · rintro rfl rfl
    obtain ⟨h1, h2, h3, h4, h5⟩ := pollMergeability_spec get 5 (by omega) 0
    have hub : updateBranch 0 0 mergeSucceeded get =
        { mergeAttempted := true, earlyReply := false
          emptyReplyOnFailedMerge := !mergeSucceeded
          pollCalls := (pollMergeability get 0 5).1
          finalMergeability := some (pollMergeability get 0 5).2 } := by
      simp [updateBranch]
    rw [hub]
    dsimp only
    refine ⟨rfl, by omega, by omega, ?_, ?_, by simp [h3]⟩
    · intro k hk
      exact h4 k (Nat.zero_le k) hk
    · intro hlt
      exact h5 (by omega)

/-- Witness for C9: with a clean tree and a first poll already decisive,
exactly one `getMergeability` call is made; with a dirty tree, none. -/
theorem c9_updateBranch_witness :
    updateBranch 1 0 true (fun _ => Mergeability.Unknown) =
      { mergeAttempted := false, earlyReply := true, emptyReplyOnFailedMerge := false,
        pollCalls := 0, finalMergeability := none } ∧
    (updateBranch 0 0 true (fun _ => Mergeability.Mergeable)).pollCalls ≤ 5 ∧
    (updateBranch 0 0 true (fun _ => Mergeability.Mergeable)).finalMergeability
      = some ((fun _ => Mergeability.Mergeable)
          ((updateBranch 0 0 true (fun _ => Mergeability.Mergeable)).pollCalls - 1)) := by
  refine ⟨?_, ?_, ?_⟩
  · exact (c9_updateBranch 1 0 true (fun _ => Mergeability.Unknown)).1 (Or.inl Nat.one_pos)
  · exact ((c9_updateBranch 0 0 true (fun _ => Mergeability.Mergeable)).2 rfl rfl).2.2.1
  · exact ((c9_updateBranch 0 0 true (fun _ => Mergeability.Mergeable)).2 rfl rfl).2.2.2.2.2

/-- Helper: `pure` into `Except` is `Except.ok`. -/
theorem exceptPure {ε α : Type} (x : α) : (pure x : Except ε α) = Except.ok x := rfl

/-- Helper: `>>=` on an `Except.ok` value applies the continuation. -/
theorem exceptBind_ok {ε α β : Type} (x : α) (f : α → Except ε β) :
    (Except.ok x : Except ε α) >>= f = f x := rfl

/-- Helper: `>>=` on an `Except.error` value propagates the error. -/
theorem exceptBind_error {ε α β : Type} (e : ε) (f : α → Except ε β) :
    (Except.error e : Except ε α) >>= f = Except.error e := rfl

/-- C8: `getSession` consults existing sessions only when neither
`forceNewSession` nor `requireScopes` is set — in which case
`findExistingScopes` probes `SCOPES_WITH_ADDITIONAL`, then `SCOPES_OLD`,
then `SCOPES_OLDEST` silently and the first session found is returned with
that scope set and `isNew = false`; in every other case a fresh session
request is made, reporting the requested scopes when `requireScopes` is
set and `SCOPES_OLD` otherwise. -/
theorem c8_getSession (env : AuthEnv) (authProviderId : AuthProvider)
    (opts : GetSessionOptions) (scopes : List String) :
    (∀ requireScopes : Bool,
      (truthy opts.forceNewSession = true ∨ requireScopes = true) →
      getSession env authProviderId opts scopes requireScopes =
        (env.hostGetSession authProviderId
            (if requireScopes then scopes else SCOPES_OLD) opts).map
          fun session =>
            { session := session, isNew := session.isSome
              scopes := if requireScopes then scopes else SCOPES_OLD }) ∧
    (truthy opts.forceNewSession = false →
      (∀ session foundScopes,
        findExistingScopes env authProviderId = Except.ok (some (session, foundScopes)) →
        getSession env authProviderId opts scopes false =
          Except.ok { session := some session, isNew := false, scopes := foundScopes }) ∧
      (findExistingScopes env authProviderId = Except.ok none →
        getSession env authProviderId opts scopes false =
          (env.hostGetSession authProviderId SCOPES_OLD opts).map
            fun session =>
              { session := session, isNew := session.isSome, scopes := SCOPES_OLD })) ∧
    (∀ s,
      (env.hostGetSession authProviderId SCOPES_WITH_ADDITIONAL { silent := some true }
          = Except.ok (some s) →
        findExistingScopes env authProviderId
          = Except.ok (some (s, SCOPES_WITH_ADDITIONAL))) ∧
      (env.hostGetSession authProviderId SCOPES_WITH_ADDITIONAL { silent := some true }
          = Except.ok none →
        env.hostGetSession authProviderId SCOPES_OLD { silent := some true }
          = Except.ok (some s) →
        findExistingScopes env authProviderId = Except.ok (some (s, SCOPES_OLD))) ∧
      (env.hostGetSession authProviderId SCOPES_WITH_ADDITIONAL { silent := some true }
          = Except.ok none →
        env.hostGetSession authProviderId SCOPES_OLD { silent := some true }
          = Except.ok none →
        env.hostGetSession authProviderId SCOPES_OLDEST { silent := some true }
          = Except.ok (some s) →
        findExistingScopes env authProviderId = Except.ok (some (s, SCOPES_OLDEST)))) ∧
    (env.hostGetSession authProviderId SCOPES_WITH_ADDITIONAL { silent := some true }
        = Except.ok none →
      env.hostGetSession authProviderId SCOPES_OLD { silent := some true }
        = Except.ok none →
      env.hostGetSession authProviderId SCOPES_OLDEST { silent := some true }
        = Except.ok none →
      findExistingScopes env authProviderId = Except.ok none) := by
  refine ⟨?_, ?_, ?_, ?_⟩
  · intro requireScopes h
    have hcond : (truthy opts.forceNewSession || requireScopes) = true := by
      rcases h with h | h <;> simp [h]
    simp only [getSession, hcond, if_true]
    rcases hres : env.hostGetSession authProviderId
        (if requireScopes then scopes else SCOPES_OLD) opts with e | session <;>
      simp [Except.map, hres, exceptBind_ok, exceptBind_error, exceptPure]
  · intro hforce
    have hcond : (truthy opts.forceNewSession || false) = false := by simp [hforce]
    constructor
    · intro session foundScopes hfind
      simp [getSession, hcond, hfind, exceptBind_ok, exceptPure]
    · intro hfind
      simp only [getSession, hcond, Bool.false_eq_true, if_false, hfind]
      rcases hres : env.hostGetSession authProviderId SCOPES_OLD opts with e | session <;>
        simp [Except.map, hres, exceptBind_ok, exceptBind_error, exceptPure]
  · intro s
    refine ⟨?_, ?_, ?_⟩
    · intro h1
      simp [findExistingScopes, findExistingScopesProbe, h1, exceptBind_ok, exceptPure]
    · intro h1 h2
      simp [findExistingScopes, findExistingScopesProbe, h1, h2, exceptBind_ok, exceptPure]
    · intro h1 h2 h3
      simp [findExistingScopes, findExistingScopesProbe, h1, h2, h3, exceptBind_ok, exceptPure]
  · intro h1 h2 h3
    simp [findExistingScopes, findExistingScopesProbe, h1, h2, h3, exceptBind_ok, exceptPure]

/-- A concrete host environment for exercising `getSession`: silent
probes succeed only for `SCOPES_OLD`, non-silent requests always succeed. -/
def sampleAuthEnv : AuthEnv where
  hostGetSession := fun _ reqScopes o =>
    if o.silent = some true ∧ reqScopes = SCOPES_OLD then
      Except.ok (some ⟨"sid", "tok"⟩)
    else if o.silent = some true then Except.ok none
    else Except.ok (some ⟨"fresh", "tok2"⟩)
  createHubFor := fun t _ => Except.ok ⟨t⟩

/-- Witness for C8 on a concrete host: the silent probe skips the
additional-scope set, finds an old-scope session, and a `requireScopes`
request reports the requested scopes. -/
theorem c8_getSession_witness :
    getSession sampleAuthEnv AuthProvider.github { createIfNone := some true } [] false =
      Except.ok { session := some ⟨"sid", "tok"⟩, isNew := false, scopes := SCOPES_OLD } ∧
    getSession sampleAuthEnv AuthProvider.github { forceNewSession := some true }
        SCOPES_WITH_ADDITIONAL true =
      Except.ok { session := some ⟨"fresh", "tok2"⟩, isNew := true
                  scopes := SCOPES_WITH_ADDITIONAL } := by
  constructor
  · exact ((c8_getSession sampleAuthEnv AuthProvider.github
      { createIfNone := some true } []).2.1 rfl).1 ⟨"sid", "tok"⟩ SCOPES_OLD rfl
  · exact ((c8_getSession sampleAuthEnv AuthProvider.github { forceNewSession := some true }
      SCOPES_WITH_ADDITIONAL).1 true (Or.inl rfl)).trans rfl

/-- C2: when the `getSession` call inside `CredentialStore`'s
`initialize` throws, the in-memory scope state (`_scopes` and
`_scopesEnterprise`) is restored, leaving the whole store state as it was
before the call, and the error is rethrown — unless it was the user
cancelling (`'User did not consent to login.'`) a forced new session, in
which case a result with `canceled := true` is returned. -/
theorem c2_initialize_error (env : AuthEnv) (authProviderId : AuthProvider)
    (hasEnterpriseUri : Bool) (isSamling : Bool) (opts : GetSessionOptions)
    (scopes : List String) (requireScopes : Bool) (st : CredState) (e : String)
    (hent : isEnterprise authProviderId = true → hasEnterpriseUri = true)
    (herr : getSession env authProviderId (normalizeOptions opts) scopes requireScopes
      = Except.error e) :
    (truthy opts.forceNewSession = true ∧ e = "User did not consent to login." →
      initCredentialStore env authProviderId hasEnterpriseUri isSamling opts scopes
          requireScopes st
        = Except.ok ({ canceled := true }, st)) ∧
    (¬(truthy opts.forceNewSession = true ∧ e = "User did not consent to login.") →
      initCredentialStore env authProviderId hasEnterpriseUri isSamling opts scopes
          requireScopes st
        = Except.error (e, st)) := by
  have hforce : (normalizeOptions opts).forceNewSession = opts.forceNewSession := by
    unfold normalizeOptions
    split <;> rfl
  have hne : ¬(isEnterprise authProviderId = true ∧ ¬hasEnterpriseUri = true) := by
    rintro ⟨h1, h2⟩
    exact h2 (hent h1)
  constructor
  · rintro ⟨hf, rfl⟩
    have hft : truthy (normalizeOptions opts).forceNewSession = true := by
      rw [hforce]
      exact hf
    rw [initCredentialStore, if_neg hne]
    dsimp only
    rw [herr]
    simp only [hft]
    rcases hp : isEnterprise authProviderId with _ | _ <;> simp [hp]
  · intro hnot
    have hcond : ¬(truthy (normalizeOptions opts).forceNewSession = true ∧
        e = "User did not consent to login.") := by
      rw [hforce]
      exact hnot
    rw [initCredentialStore, if_neg hne]
    dsimp only
    rw [herr]
    simp only [hcond]
    rcases hp : isEnterprise authProviderId with _ | _ <;> simp [hp, hcond]

/-- Witness for C2: a host that rejects with the user-cancel message under
a forced new session makes `initialize` return `canceled := true` with the
store state untouched. -/
theorem c2_initialize_error_witness :
    initCredentialStore
        ⟨fun _ _ _ => Except.error "User did not consent to login.",
          fun t _ => Except.ok ⟨t⟩⟩
        AuthProvider.github true false { forceNewSession := some true } SCOPES_OLD
        false {} =
      Except.ok ({ canceled := true }, {}) :=
  (c2_initialize_error
      ⟨fun _ _ _ => Except.error "User did not consent to login.",
        fun t _ => Except.ok ⟨t⟩⟩
      AuthProvider.github true false { forceNewSession := some true } SCOPES_OLD
      false {} "User did not consent to login."
      (fun _ => rfl) rfl).1 ⟨rfl, rfl⟩

end Spec2Proof
